import Mathlib

/-!
Verification of `automate_email_sending.py` against its specification.

The Python source is shallowly embedded: pure functions become Lean
functions, the process state (console output, log file contents, the
`warning_flag`/`error_flag` latches, SMTP traffic) becomes an explicit
`ProcState` threaded through the effectful functions, the filesystem and
the SMTP endpoint become explicit function parameters, and fallible code
returns `Option`/`Except`.
-/

namespace EmailAutomation

/-! ## Regular-expression semantics

`check_email_format` is built on `re.match(r'^[\w\.-]+@[\w\.-]+\.\w{2,3}$', s)`.
We give a standard inductive semantics for the regex constructs the pattern
uses and transliterate the pattern into it.  Python's `$` matches at the end
of the string *or just before a newline at the end of the string*; since `$`
is the last token of this pattern (and `^` with `re.match` anchors at the
start), the whole-pattern match is a full match of the `$`-free core against
either the string or the string minus one trailing newline.  That allowance
is expressed separately in `re_match_email` below.
-/

/-- Regex abstract syntax: empty word, single character from a class,
concatenation, alternation, Kleene star. `a+` and `a{2,3}` are derived. -/
inductive Regex where
  | eps : Regex
  | cls : (Char → Bool) → Regex
  | concat : Regex → Regex → Regex
  | alt : Regex → Regex → Regex
  | star : Regex → Regex

/-- The usual matching relation for regular expressions. -/
inductive RMatch : Regex → List Char → Prop where
  | eps : RMatch .eps []
  | cls {p : Char → Bool} {c : Char} : p c = true → RMatch (.cls p) [c]
  | concat {r₁ r₂ : Regex} {s₁ s₂ : List Char} :
      RMatch r₁ s₁ → RMatch r₂ s₂ → RMatch (.concat r₁ r₂) (s₁ ++ s₂)
  | altL {r₁ r₂ : Regex} {s : List Char} : RMatch r₁ s → RMatch (.alt r₁ r₂) s
  | altR {r₁ r₂ : Regex} {s : List Char} : RMatch r₂ s → RMatch (.alt r₁ r₂) s
  | starNil {r : Regex} : RMatch (.star r) []
  | starCons {r : Regex} {s₁ s₂ : List Char} :
      RMatch r s₁ → RMatch (.star r) s₂ → RMatch (.star r) (s₁ ++ s₂)

/-- `r+` is `r · r*`. -/
def Regex.plus (r : Regex) : Regex := .concat r (.star r)

/-- A literal character is a one-element class. -/
def Regex.chr (c : Char) : Regex := .cls (fun x => x == c)

/-- `p{2,3}` is `p · p · (ε | p)`. -/
def Regex.rep23 (p : Char → Bool) : Regex :=
  .concat (.cls p) (.concat (.cls p) (.alt .eps (.cls p)))

/-- Python's `\w` word class, restricted to ASCII: letters, digits, `_`.
(Python 3 `\w` is Unicode-aware; every string appearing in the claims is
ASCII, and both sides of every comparison below use this same class.) -/
def wordB (c : Char) : Bool := c.isAlphanum || c == '_'

/-- The character class `[\w\.-]`. -/
def localB (c : Char) : Bool := wordB c || c == '.' || c == '-'

/-- The pattern `[\w\.-]+@[\w\.-]+\.\w{2,3}` — the regex of
`check_email_format` without the (redundant, given `re.match`) `^` anchor
and without the trailing `$`, which is handled by `re_match_email`. -/
def email_pattern : Regex :=
  .concat (Regex.plus (.cls localB))
    (.concat (Regex.chr '@')
      (.concat (Regex.plus (.cls localB))
        (.concat (Regex.chr '.') (Regex.rep23 wordB))))

/-- Structural description of the strings `email_pattern` matches:
a nonempty run of `[\w.-]` characters, `@`, a nonempty run of `[\w.-]`
characters, `.`, and 2 or 3 word characters. -/
def emailShape (cs : List Char) : Prop :=
  ∃ l d t, cs = l ++ '@' :: (d ++ '.' :: t) ∧
    l ≠ [] ∧ (∀ c ∈ l, localB c = true) ∧
    d ≠ [] ∧ (∀ c ∈ d, localB c = true) ∧
    (t.length = 2 ∨ t.length = 3) ∧ (∀ c ∈ t, wordB c = true)

/-- Executable search for the `d ++ '.' :: t` part of `emailShape`. -/
def tailShapeB (rest : List Char) : Bool :=
  (List.range (rest.length + 1)).any fun j =>
    decide (rest.take j ≠ []) && (rest.take j).all localB &&
      ((rest.drop j).head? == some '.') &&
      (((rest.drop j).tail.length == 2 || (rest.drop j).tail.length == 3) &&
        (rest.drop j).tail.all wordB)

/-- Executable decision procedure for `emailShape`: search all split points
(this is exactly what the backtracking engine does to decide a match). -/
def emailShapeB (cs : List Char) : Bool :=
  (List.range (cs.length + 1)).any fun i =>
    decide (cs.take i ≠ []) && (cs.take i).all localB &&
      ((cs.drop i).head? == some '@') && tailShapeB (cs.drop i).tail

/-- `re.match(r'^[\w\.-]+@[\w\.-]+\.\w{2,3}$', ·)` as a Bool: the `$`-free
core matches the whole string, or the string ends in a newline and the core
matches the string without it (Python `$` semantics). -/
def re_match_email (cs : List Char) : Bool :=
  emailShapeB cs || (cs.getLast? == some '\n' && emailShapeB cs.dropLast)

/-- `check_email_format`: returns the address itself when the regex
matches, and `None` (here `none`) otherwise.  Total: no exceptions. -/
def check_email_format (email_address : String) : Option String :=
  if re_match_email email_address.data then some email_address else none

end EmailAutomation


namespace EmailAutomation

/-! ## Process state, logging, and the remaining components

File-path constants: the Python code builds absolute paths from the
script's directory; the directory prefix is machine-dependent and plays no
role in any claim, so the constants keep only the stable suffix. -/

def CONFIG_FILE : String := "Config/config.json"

def LOG_FILE : String := "Logs/Logs.log"

/-- Severity of a log record (`logging.info` / `warning` / `error`). -/
inductive LogLevel where
  | info : LogLevel
  | warning : LogLevel
  | error : LogLevel
deriving DecidableEq, Repr

/-- One line appended to the log file: level and message
(the timestamp added by the `logging` format string is not modelled). -/
structure LogRecord where
  level : LogLevel
  message : String
deriving DecidableEq, Repr

/-- Observable process state threaded through the effectful functions:
the two module-level console-notice latches, everything printed to the
console (in order), everything appended to the log file (in order), and
every message actually submitted to the SMTP server as
`(sender, recipient)` pairs. -/
structure ProcState where
  warning_flag : Bool
  error_flag : Bool
  console : List String
  logLines : List LogRecord
  smtpSent : List (String × String)
deriving DecidableEq, Repr

/-- State at interpreter start-up: both latches set, nothing printed,
logged, or sent. -/
def initState : ProcState := ⟨true, true, [], [], []⟩

/-- The console line printed by the first `log_warning` of the process. -/
def warnNotice : String :=
  "Warning: Invalid email address(es) found, check \"" ++ LOG_FILE ++ "\" for more info."

/-- The console line printed by the first `log_error` of the process
(the typo \"occured\" is the source's). -/
def errNotice : String :=
  "Error(s) occured, please check \"" ++ LOG_FILE ++ "\" for more details."

/-- `log_warning`: print the notice once per process (latch
`warning_flag`), then append a WARNING record to the log. -/
def log_warning (message : String) (st : ProcState) : ProcState :=
  let st' := if st.warning_flag then
      { st with console := st.console ++ [warnNotice], warning_flag := false }
    else st
  { st' with logLines := st'.logLines ++ [⟨.warning, message⟩] }

/-- `log_error`: print the notice once per process (latch `error_flag`),
then append an ERROR record to the log. -/
def log_error (message : String) (st : ProcState) : ProcState :=
  let st' := if st.error_flag then
      { st with console := st.console ++ [errNotice], error_flag := false }
    else st
  { st' with logLines := st'.logLines ++ [⟨.error, message⟩] }

/-- `log_success`: append an INFO record to the log; prints nothing. -/
def log_success (message : String) (st : ProcState) : ProcState :=
  { st with logLines := st.logLines ++ [⟨.info, message⟩] }

/-- Python `str.strip()`: remove leading and trailing whitespace
(ASCII whitespace; Python also strips other Unicode whitespace, which no
claim exercises). -/
def pyStrip (s : String) : String :=
  String.mk
    (((s.data.dropWhile Char.isWhitespace).reverse.dropWhile
        Char.isWhitespace).reverse)

/-! ### Recipient loader -/

/-- The `for line in recipients_file:` loop of `get_recipients`:
validate each stripped line, collecting valid addresses and logging a
warning per invalid line. -/
def recipLoop (filename : String) :
    List String → List String → ProcState → List String × ProcState
  | [], acc, st => (acc, st)
  | line :: rest, acc, st =>
      match check_email_format (pyStrip line) with
      | some recipient => recipLoop filename rest (acc ++ [recipient]) st
      | none =>
          recipLoop filename rest acc
            (log_warning ("Invalid email \"" ++ pyStrip line ++ "\" in \"" ++
              filename ++ "\".") st)

/-- `get_recipients`: `contents` is the recipients file as a list of lines
(`none` = `FileNotFoundError` when opening).  Returns the valid addresses,
or `none` after logging an error when the file is missing or no line
validates (the in-function `raise Exception` is caught by the function's
own generic handler, which logs `f'{e}\n'` and returns `None`). -/
def get_recipients (filename : String) (contents : Option (List String))
    (st : ProcState) : Option (List String) × ProcState :=
  match contents with
  | none =>
      (none, log_error ("Recipients file \"" ++ filename ++ "\" not found.\n") st)
  | some lines =>
      let res := recipLoop filename lines [] st
      if res.1 = [] then
        (none, log_error ("No valid email address(es) found in \"" ++ filename ++
          "\".\n") res.2)
      else (some res.1, res.2)

/-! ### Mail composer -/

/-- A byte filesystem: maps a path to the file's bytes when the file
exists.  `os.path.exists("")` is `False` in Python, so a filesystem is
only faithful when it maps `""` to `none`; theorems that need this state
it as a hypothesis. -/
abbrev ByteFS : Type := String → Option (List Nat)

/-- `os.path.basename`: the part of the path after the last `/`. -/
def basename (p : String) : String :=
  String.mk ((p.data.reverse.takeWhile (fun c => c ≠ '/')).reverse)

/-- An attachment part: `Name`/`filename` header and content bytes. -/
structure Attachment where
  filename : String
  content : List Nat
deriving DecidableEq, Repr

/-- The composed MIME message: From/To/Subject headers, plain-text body,
and attachment parts in order. -/
structure EmailMsg where
  fromAddr : String
  toAddr : String
  subject : String
  body : String
  attachments : List Attachment
deriving DecidableEq, Repr

/-- `compose_email`: build the message; attach the file when
`attachment_path` exists, raise `FileExistsError` (`.error` here) when a
non-empty path does not exist, and attach nothing when the path is empty.
The caught-and-reraised `FileExistsError` is the `.error` value. -/
def compose_email (fs : ByteFS) (email_address recipient_address subject
    message attachment_path : String) : Except String EmailMsg :=
  let msg : EmailMsg := ⟨email_address, recipient_address, subject, message, []⟩
  match fs attachment_path with
  | some bytes =>
      .ok { msg with attachments := [⟨basename attachment_path, bytes⟩] }
  | none =>
      if attachment_path ≠ "" then
        .error ("Attachment file \"" ++ attachment_path ++ "\" not found.")
      else .ok msg

/-! ### Mail dispatcher -/

/-- The SMTP endpoint, reduced to what the program can observe: whether
`login` succeeds for given credentials.  (Connection failures behave like
login failures: both raise into `send_email`'s generic handler.) -/
structure SMTPEnv where
  loginOk : String → String → Bool

/-- Message logged when the sender address fails validation
(`raise Exception(...)` caught by the generic handler, which logs
`f'{e}\n'`). -/
def invalidSenderMsg (sender_address : String) : String :=
  "Invalid gmail address format \"" ++ sender_address ++
    "\", please edit the correct gmail address format in \"" ++ CONFIG_FILE ++ "\".\n"

/-- Message logged when `login` raises (`smtplib` exception text is
environment-dependent; modelled by a fixed string). -/
def loginFailMsg : String := "SMTP login failed\n"

/-- The per-recipient loop of `send_email`.  A `FileExistsError` from
`compose_email` is caught by `send_email`'s `except FileExistsError`
handler, which logs `f'{e}\n'` and falls off the end of the function:
Python then returns `None` — hence `(none, ...)`, aborting the remaining
recipients.  On a composed message the source's
`gmail_server.sendmail(...)` call is commented out (line 224), so no
submission is recorded in `smtpSent`; only `log_success` runs. -/
def sendLoop (fs : ByteFS) (sender_address subject message
    attachment_path : String) :
    List String → ProcState → Option Bool × ProcState
  | [], st => (some true, st)
  | recipient_address :: rest, st =>
      match compose_email fs sender_address recipient_address subject message
          attachment_path with
      | .error e => (none, log_error (e ++ "\n") st)
      | .ok _msg =>
          sendLoop fs sender_address subject message attachment_path rest
            (log_success ("Successfully sent email to \"" ++
              pyStrip recipient_address ++ "\"\n") st)

/-- `send_email`: validate the sender, log in, then send to each
recipient.  Returns `some true` on success, `some false` when the generic
`except Exception` handler runs (invalid sender, login failure), and
`none` (Python `None`) when the `except FileExistsError` handler runs,
since that handler has no `return` statement. -/
def send_email (env : SMTPEnv) (fs : ByteFS) (sender_address sender_password :
    String) (recipient_addresses : List String) (subject message
    attachment_path : String) (st : ProcState) : Option Bool × ProcState :=
  if check_email_format sender_address = none then
    (some false, log_error (invalidSenderMsg sender_address) st)
  else if env.loginOk sender_address sender_password = false then
    (some false, log_error loginFailMsg st)
  else
    sendLoop fs sender_address subject message attachment_path
      recipient_addresses st

/-! ### Entry point -/

/-- `main`: load recipients; on success dispatch and print the one-line
outcome (`if success:` is a Python truthiness test, so `None` and `False`
both print the failure line); on loader failure return with no further
action. -/
def main (env : SMTPEnv) (files : String → Option (List String)) (fs : ByteFS)
    (email_address email_password recipients_file subject message
    attachment_path : String) (st : ProcState) : ProcState :=
  let res := get_recipients recipients_file (files recipients_file) st
  match res.1 with
  | none => res.2
  | some recipients =>
      let sres := send_email env fs email_address email_password recipients
        subject message attachment_path res.2
      if sres.1 = some true then
        { sres.2 with console := sres.2.console ++ ["Successfully sent emails."] }
      else
        { sres.2 with console := sres.2.console ++ ["Failed to send emails."] }

end EmailAutomation

namespace EmailAutomation

/-! ## Configuration store

The configuration is a JSON object; every value the program reads or
writes through it is a string, so it is modelled as an ordered
association list with distinct keys (Python dicts preserve insertion
order; updating an existing key keeps its position, a new key is
appended). -/

abbrev Config : Type := List (String × String)

/-- `config.get(key)` / `key in config`. -/
def cfgGet (c : Config) (k : String) : Option String :=
  match c with
  | [] => none
  | p :: t => if p.1 == k then some p.2 else cfgGet t k

/-- `config[key] = value`: update in place, or append when absent. -/
def cfgSet (c : Config) (k : String) (v : String) : Config :=
  if c.any (fun p => p.1 == k) then
    c.map (fun p => if p.1 == k then (k, v) else p)
  else c ++ [(k, v)]

/-- Python truthiness of `config.get(key)`: `None` (absent) and `''` are
both falsy. -/
def falsyGet (c : Config) (k : String) : Bool :=
  match cfgGet c k with
  | none => true
  | some v => v == ""

/-- The prompt table of `setup_config`, in source order. -/
def config_keys : List (String × String) :=
  [("email_address", "Enter your email address: "),
   ("recipients_file", "Enter the recipients file path: "),
   ("subject", "Enter the email subject: "),
   ("message", "Enter the email message/body: "),
   ("attachment_path", "Enter the file attachment path (optional, press Enter to skip): ")]

/-- `setup_config`: for every key whose current value is falsy, prompt
(`input(prompt)`, modelled by `responses` keyed by the config key) and
store the response; finally persist and re-read.  Returns the resulting
(and persisted) configuration together with the prompts issued, in
order.  The JSON write/read round-trip is the identity. -/
def setup_config (responses : String → String) (config : Config) :
    Config × List String :=
  config_keys.foldl
    (fun acc kp =>
      if falsyGet acc.1 kp.1 then
        (cfgSet acc.1 kp.1 (responses kp.1), acc.2 ++ [kp.2])
      else acc)
    (config, [])

/-- The keys `load_config` requires to be *present* (`field not in
config` tests presence, not truthiness). -/
def required_fields : List String :=
  ["email_address", "recipients_file", "subject", "message"]

/-- What is persisted at `CONFIG_FILE` when `load_config` runs: no file,
a file that fails to parse as JSON (`json.JSONDecodeError`), or a parsed
object. -/
inductive StoredConfig where
  | absent : StoredConfig
  | malformed : StoredConfig
  | stored : Config → StoredConfig

/-- Message logged when the persisted configuration fails to parse
(the `str(e)` detail of the `JSONDecodeError` is elided). -/
def jsonDecodeErrMsg : String := "Error decoding JSON in configuration file: "

/-- `load_config`: bootstrap from `{}` when no file exists; re-read and
bootstrap when a required key is absent; log an error and return the
empty configuration when parsing fails (the `except json.JSONDecodeError`
handler — no bootstrap, nothing re-raised to the caller).  Returns the
configuration, the prompts issued, and the process state. -/
def load_config (responses : String → String) (persisted : StoredConfig)
    (st : ProcState) : Config × List String × ProcState :=
  match persisted with
  | .absent =>
      let r := setup_config responses []
      (r.1, r.2, st)
  | .malformed => ([], [], log_error jsonDecodeErrMsg st)
  | .stored config =>
      if required_fields.any (fun f => (cfgGet config f).isNone) then
        let r := setup_config responses config
        (r.1, r.2, st)
      else (config, [], st)

/-! ## Logger call sequences (for the latch invariant) -/

/-- One call to the logging component. -/
inductive LogCall where
  | warn : String → LogCall
  | err : String → LogCall
  | info : String → LogCall

/-- Dispatch one logging call. -/
def applyLogCall (st : ProcState) : LogCall → ProcState
  | .warn m => log_warning m st
  | .err m => log_error m st
  | .info m => log_success m st

/-- Run a sequence of logging calls, in order, within one process. -/
def runLogCalls (calls : List LogCall) (st : ProcState) : ProcState :=
  calls.foldl applyLogCall st

def isWarnCall : LogCall → Bool
  | .warn _ => true
  | _ => false

def isErrCall : LogCall → Bool
  | .err _ => true
  | _ => false

/-! ## Observations on the process state used by the theorems -/

/-- Number of WARNING records in the log. -/
def warnCount (st : ProcState) : Nat :=
  (st.logLines.filter (fun r => r.level == LogLevel.warning)).length

/-- Number of INFO records in the log (`log_success` calls). -/
def infoCount (st : ProcState) : Nat :=
  (st.logLines.filter (fun r => r.level == LogLevel.info)).length

/-- The WARNING record `get_recipients` logs for an invalid line. -/
def warnRecord (filename line : String) : LogRecord :=
  ⟨.warning, "Invalid email \"" ++ pyStrip line ++ "\" in \"" ++ filename ++ "\"."⟩

end EmailAutomation


namespace EmailAutomation

/-! ### Correctness of the executable matcher w.r.t. the regex semantics -/

theorem take_length_append {α : Type} (l r : List α) : (l ++ r).take l.length = l := by
  induction l with
  | nil => rfl
  | cons a t ih => simp [List.take, ih]

theorem drop_length_append {α : Type} (l r : List α) : (l ++ r).drop l.length = r := by
  induction l with
  | nil => rfl
  | cons a t ih => exact ih

theorem star_cls_all {p : Char → Bool} :
    ∀ {s : List Char}, RMatch (.star (.cls p)) s → ∀ c ∈ s, p c = true := by
  intro s h
  generalize hR : Regex.star (Regex.cls p) = R at h
  induction h with
  | eps => cases hR
  | cls _ => cases hR
  | concat _ _ _ _ => cases hR
  | altL _ _ => cases hR
  | altR _ _ => cases hR
  | starNil => intro c hc; cases hc
  | starCons h₁ _h₂ _ih₁ ih₂ =>
      cases hR
      intro c hc
      rcases List.mem_append.mp hc with hc₁ | hc₂
      · cases h₁ with
        | cls hp =>
            rcases List.mem_singleton.mp hc₁ with rfl
            exact hp
      · exact ih₂ rfl c hc₂

theorem all_star_cls {p : Char → Bool} :
    ∀ {s : List Char}, (∀ c ∈ s, p c = true) → RMatch (.star (.cls p)) s := by
  intro s
  induction s with
  | nil => intro _; exact RMatch.starNil
  | cons a t ih =>
      intro h
      exact RMatch.starCons (RMatch.cls (h a (List.mem_cons_self a t)))
        (ih fun c hc => h c (List.mem_cons_of_mem a hc))

theorem plus_cls_iff {p : Char → Bool} {s : List Char} :
    RMatch (Regex.plus (.cls p)) s ↔ s ≠ [] ∧ ∀ c ∈ s, p c = true := by
  constructor
  · intro h
    cases h with
    | concat h₁ h₂ =>
        cases h₁ with
        | cls hp =>
            refine ⟨by simp, ?_⟩
            intro c hc
            rcases List.mem_append.mp hc with hc₁ | hc₂
            · rcases List.mem_singleton.mp hc₁ with rfl; exact hp
            · exact star_cls_all h₂ c hc₂
  · rintro ⟨hne, hall⟩
    cases s with
    | nil => exact absurd rfl hne
    | cons a t =>
        exact RMatch.concat (RMatch.cls (hall a (List.mem_cons_self a t)))
          (all_star_cls fun c hc => hall c (List.mem_cons_of_mem a hc))

theorem chr_iff {c : Char} {s : List Char} : RMatch (Regex.chr c) s ↔ s = [c] := by
  constructor
  · intro h
    cases h with
    | cls hp => simp_all [Regex.chr]
  · rintro rfl
    exact RMatch.cls (by simp)

theorem rep23_iff {p : Char → Bool} {s : List Char} :
    RMatch (Regex.rep23 p) s ↔
      (s.length = 2 ∨ s.length = 3) ∧ ∀ c ∈ s, p c = true := by
  constructor
  · intro h
    cases h with
    | concat h₁ h₂ =>
        cases h₁ with
        | cls hp₁ =>
            cases h₂ with
            | concat h₃ h₄ =>
                cases h₃ with
                | cls hp₂ =>
                    cases h₄ with
                    | altL h₅ =>
                        cases h₅
                        refine ⟨Or.inl (by simp), ?_⟩
                        intro c hc
                        simp only [List.append_nil] at hc
                        rcases List.mem_append.mp hc with hc₁ | hc₂
                        · rcases List.mem_singleton.mp hc₁ with rfl; exact hp₁
                        · rcases List.mem_singleton.mp hc₂ with rfl; exact hp₂
                    | altR h₅ =>
                        cases h₅ with
                        | cls hp₃ =>
                            refine ⟨Or.inr (by simp), ?_⟩
                            intro c hc
                            rcases List.mem_append.mp hc with hc₁ | hc₂
                            · rcases List.mem_singleton.mp hc₁ with rfl; exact hp₁
                            · rcases List.mem_append.mp hc₂ with hc₃ | hc₄
                              · rcases List.mem_singleton.mp hc₃ with rfl; exact hp₂
                              · rcases List.mem_singleton.mp hc₄ with rfl; exact hp₃
  · rintro ⟨hlen, hall⟩
    rcases hlen with h2 | h3
    · match s, h2 with
      | [a, b], _ =>
          exact RMatch.concat (RMatch.cls (hall a (by simp)))
            (RMatch.concat (RMatch.cls (hall b (by simp))) (RMatch.altL RMatch.eps))
    · match s, h3 with
      | [a, b, c], _ =>
          exact RMatch.concat (RMatch.cls (hall a (by simp)))
            (RMatch.concat (RMatch.cls (hall b (by simp)))
              (RMatch.altR (RMatch.cls (hall c (by simp)))))

/-- The transliterated pattern matches exactly the strings of `emailShape`. -/
theorem rmatch_email_iff {cs : List Char} : RMatch email_pattern cs ↔ emailShape cs := by
  constructor
  · intro h
    cases h with
    | concat h₁ h₂ =>
        rcases plus_cls_iff.mp h₁ with ⟨hl, hlall⟩
        cases h₂ with
        | concat h₃ h₄ =>
            rcases chr_iff.mp h₃ with rfl
            cases h₄ with
            | concat h₅ h₆ =>
                rcases plus_cls_iff.mp h₅ with ⟨hd, hdall⟩
                cases h₆ with
                | concat h₇ h₈ =>
                    rcases chr_iff.mp h₇ with rfl
                    rcases rep23_iff.mp h₈ with ⟨hlen, htall⟩
                    exact ⟨_, _, _, by simp, hl, hlall, hd, hdall, hlen, htall⟩
  · rintro ⟨l, d, t, rfl, hl, hlall, hd, hdall, hlen, htall⟩
    have : RMatch email_pattern (l ++ ([ '@' ] ++ (d ++ ([ '.' ] ++ t)))) :=
      RMatch.concat (plus_cls_iff.mpr ⟨hl, hlall⟩)
        (RMatch.concat (chr_iff.mpr rfl)
          (RMatch.concat (plus_cls_iff.mpr ⟨hd, hdall⟩)
            (RMatch.concat (chr_iff.mpr rfl) (rep23_iff.mpr ⟨hlen, htall⟩))))
    simpa using this

theorem tailShapeB_iff {rest : List Char} :
    tailShapeB rest = true ↔
      ∃ d t, rest = d ++ '.' :: t ∧ d ≠ [] ∧ (∀ c ∈ d, localB c = true) ∧
        (t.length = 2 ∨ t.length = 3) ∧ (∀ c ∈ t, wordB c = true) := by
  constructor
  · intro h
    rcases List.any_eq_true.mp h with ⟨j, _hj, hconj⟩
    simp only [Bool.and_eq_true, decide_eq_true_eq, beq_iff_eq, List.all_eq_true,
      Bool.or_eq_true, beq_iff_eq, Nat.beq_eq_true_eq] at hconj
    obtain ⟨⟨⟨hne, hall⟩, hhead⟩, hlen, htall⟩ := hconj
    refine ⟨rest.take j, (rest.drop j).tail, ?_, hne, hall, ?_, htall⟩
    · cases hdr : rest.drop j with
      | nil => rw [hdr] at hhead; cases hhead
      | cons a u =>
          rw [hdr] at hhead
          simp only [List.head?] at hhead
          injection hhead with ha
          subst ha
          conv_lhs => rw [← List.take_append_drop j rest]
          rw [hdr]
          rfl
    · simpa using hlen
  · rintro ⟨d, t, rfl, hne, hall, hlen, htall⟩
    apply List.any_eq_true.mpr
    refine ⟨d.length, ?_, ?_⟩
    · simp only [List.mem_range, List.length_append, List.length_cons]
      omega
    · rw [take_length_append, drop_length_append]
      rcases hlen with h2 | h2 <;>
        · simp [List.all_eq_true, hne, h2]
          exact ⟨hall, htall⟩

theorem emailShapeB_iff {cs : List Char} : emailShapeB cs = true ↔ emailShape cs := by
  constructor
  · intro h
    rcases List.any_eq_true.mp h with ⟨i, _hi, hconj⟩
    simp only [Bool.and_eq_true, decide_eq_true_eq, beq_iff_eq, List.all_eq_true] at hconj
    obtain ⟨⟨⟨hne, hall⟩, hhead⟩, htail⟩ := hconj
    rcases tailShapeB_iff.mp htail with ⟨d, t, hdt, hd, hdall, hlen, htall⟩
    cases hdr : cs.drop i with
    | nil => rw [hdr] at hhead; cases hhead
    | cons a u =>
        rw [hdr] at hhead
        simp only [List.head?] at hhead
        injection hhead with ha
        subst ha
        rw [hdr] at hdt
        simp only [List.tail] at hdt
        refine ⟨cs.take i, d, t, ?_, hne, hall, hd, hdall, hlen, htall⟩
        conv_lhs => rw [← List.take_append_drop i cs]
        rw [hdr, hdt]
  · rintro ⟨l, d, t, rfl, hl, hlall, hd, hdall, hlen, htall⟩
    apply List.any_eq_true.mpr
    refine ⟨l.length, ?_, ?_⟩
    · simp only [List.mem_range, List.length_append, List.length_cons]
      omega
    · rw [take_length_append, drop_length_append]
      simp [List.all_eq_true, hl,
        tailShapeB_iff.mpr ⟨d, t, rfl, hd, hdall, hlen, htall⟩]
      exact hlall

/-- Faithfulness of the executable validator to the regex semantics:
`check_email_format` accepts exactly the strings matched by
`^[\w\.-]+@[\w\.-]+\.\w{2,3}$` under Python `re.match` (the pattern core
matches the string, or the string minus a single trailing newline). -/
theorem check_email_format_regex {s : String} :
    check_email_format s = some s ↔
      (RMatch email_pattern s.data ∨
        (s.data.getLast? = some '\n' ∧ RMatch email_pattern s.data.dropLast)) := by
  have hbool : re_match_email s.data = true ↔
      (RMatch email_pattern s.data ∨
        (s.data.getLast? = some '\n' ∧ RMatch email_pattern s.data.dropLast)) := by
    unfold re_match_email
    simp only [Bool.or_eq_true, Bool.and_eq_true, beq_iff_eq]
    rw [emailShapeB_iff, emailShapeB_iff, rmatch_email_iff, rmatch_email_iff]
  rw [← hbool]
  unfold check_email_format
  rcases Bool.eq_false_or_eq_true (re_match_email s.data) with hre | hre <;>
    simp [hre]

end EmailAutomation

namespace EmailAutomation

/-! ### State-evolution lemmas for the logger -/

theorem log_warning_console (m : String) (st : ProcState) :
    (log_warning m st).console
      = st.console ++ (if st.warning_flag then [warnNotice] else []) := by
  rcases st with ⟨wf, ef, co, ll, sm⟩
  cases wf <;> simp [log_warning]

theorem log_warning_logLines (m : String) (st : ProcState) :
    (log_warning m st).logLines = st.logLines ++ [⟨.warning, m⟩] := by
  rcases st with ⟨wf, ef, co, ll, sm⟩
  cases wf <;> simp [log_warning]

theorem log_warning_warning_flag (m : String) (st : ProcState) :
    (log_warning m st).warning_flag = false := by
  rcases st with ⟨wf, ef, co, ll, sm⟩
  cases wf <;> simp [log_warning]

theorem log_warning_error_flag (m : String) (st : ProcState) :
    (log_warning m st).error_flag = st.error_flag := by
  rcases st with ⟨wf, ef, co, ll, sm⟩
  cases wf <;> simp [log_warning]

theorem log_warning_smtpSent (m : String) (st : ProcState) :
    (log_warning m st).smtpSent = st.smtpSent := by
  rcases st with ⟨wf, ef, co, ll, sm⟩
  cases wf <;> simp [log_warning]

theorem log_error_console (m : String) (st : ProcState) :
    (log_error m st).console
      = st.console ++ (if st.error_flag then [errNotice] else []) := by
  rcases st with ⟨wf, ef, co, ll, sm⟩
  cases ef <;> simp [log_error]

theorem log_error_logLines (m : String) (st : ProcState) :
    (log_error m st).logLines = st.logLines ++ [⟨.error, m⟩] := by
  rcases st with ⟨wf, ef, co, ll, sm⟩
  cases ef <;> simp [log_error]

theorem log_error_error_flag (m : String) (st : ProcState) :
    (log_error m st).error_flag = false := by
  rcases st with ⟨wf, ef, co, ll, sm⟩
  cases ef <;> simp [log_error]

theorem log_error_warning_flag (m : String) (st : ProcState) :
    (log_error m st).warning_flag = st.warning_flag := by
  rcases st with ⟨wf, ef, co, ll, sm⟩
  cases ef <;> simp [log_error]

theorem log_error_smtpSent (m : String) (st : ProcState) :
    (log_error m st).smtpSent = st.smtpSent := by
  rcases st with ⟨wf, ef, co, ll, sm⟩
  cases ef <;> simp [log_error]

theorem log_success_eq (m : String) (st : ProcState) :
    log_success m st =
      ⟨st.warning_flag, st.error_flag, st.console,
        st.logLines ++ [⟨.info, m⟩], st.smtpSent⟩ := by
  rcases st with ⟨wf, ef, co, ll, sm⟩
  simp [log_success]

/-! ### State-evolution lemmas for the recipient loader -/

theorem recipLoop_spec (f : String) :
    ∀ (lines acc : List String) (st : ProcState),
      (recipLoop f lines acc st).1
          = acc ++ lines.filterMap (fun l => check_email_format (pyStrip l)) ∧
      (recipLoop f lines acc st).2.logLines
          = st.logLines ++
            (lines.filter
              (fun l => (check_email_format (pyStrip l)).isNone)).map (warnRecord f) ∧
      (recipLoop f lines acc st).2.error_flag = st.error_flag ∧
      (recipLoop f lines acc st).2.smtpSent = st.smtpSent ∧
      (∀ x ∈ (recipLoop f lines acc st).2.console,
        x ∈ st.console ∨ x = warnNotice) := by
  intro lines
  induction lines with
  | nil =>
      intro acc st
      refine ⟨by simp [recipLoop], by simp [recipLoop], rfl, rfl, ?_⟩
      intro x hx
      exact Or.inl hx
  | cons line rest ih =>
      intro acc st
      cases hv : check_email_format (pyStrip line) with
      | some r =>
          have hstep : recipLoop f (line :: rest) acc st
              = recipLoop f rest (acc ++ [r]) st := by
            simp [recipLoop, hv]
          obtain ⟨ih1, ih2, ih3, ih4, ih5⟩ := ih (acc ++ [r]) st
          rw [hstep]
          refine ⟨?_, ?_, ih3, ih4, ih5⟩
          · rw [ih1]
            simp [List.filterMap_cons, hv]
          · rw [ih2]
            simp [List.filter_cons, hv]
      | none =>
          have hstep : recipLoop f (line :: rest) acc st
              = recipLoop f rest acc
                  (log_warning ("Invalid email \"" ++ pyStrip line ++ "\" in \"" ++
                    f ++ "\".") st) := by
            simp [recipLoop, hv]
          obtain ⟨ih1, ih2, ih3, ih4, ih5⟩ :=
            ih acc (log_warning ("Invalid email \"" ++ pyStrip line ++ "\" in \"" ++
              f ++ "\".") st)
          rw [hstep]
          refine ⟨?_, ?_, ?_, ?_, ?_⟩
          · rw [ih1]
            simp [List.filterMap_cons, hv]
          · rw [ih2, log_warning_logLines]
            simp [List.filter_cons, hv, warnRecord]
          · rw [ih3, log_warning_error_flag]
          · rw [ih4, log_warning_smtpSent]
          · intro x hx
            rcases ih5 x hx with hx' | hx'
            · rw [log_warning_console] at hx'
              rcases List.mem_append.mp hx' with h1 | h1
              · exact Or.inl h1
              · right
                cases hwf : st.warning_flag <;> simp_all
            · exact Or.inr hx'

theorem get_recipients_some (f : String) (lines : List String) (st : ProcState)
    (hne : lines.filterMap (fun l => check_email_format (pyStrip l)) ≠ []) :
    get_recipients f (some lines) st
      = (some (lines.filterMap (fun l => check_email_format (pyStrip l))),
         (recipLoop f lines [] st).2) := by
  obtain ⟨h1, -, -, -, -⟩ := recipLoop_spec f lines [] st
  simp only [List.nil_append] at h1
  simp only [get_recipients]
  rw [h1, if_neg hne]

theorem get_recipients_all_invalid (f : String) (lines : List String)
    (st : ProcState)
    (hall : lines.filterMap (fun l => check_email_format (pyStrip l)) = []) :
    get_recipients f (some lines) st
      = (none, log_error ("No valid email address(es) found in \"" ++ f ++ "\".\n")
          (recipLoop f lines [] st).2) := by
  obtain ⟨h1, -, -, -, -⟩ := recipLoop_spec f lines [] st
  simp only [List.nil_append] at h1
  simp only [get_recipients]
  rw [h1, if_pos hall]

theorem get_recipients_ne_some_nil (f : String) (c : Option (List String))
    (st : ProcState) : (get_recipients f c st).1 ≠ some [] := by
  cases c with
  | none => simp [get_recipients]
  | some lines =>
      by_cases hres : lines.filterMap (fun l => check_email_format (pyStrip l)) = []
      · rw [get_recipients_all_invalid f lines st hres]
        simp
      · rw [get_recipients_some f lines st hres]
        simp [hres]

/-- Every console line the loader adds is one of the two notices. -/
theorem get_recipients_console (f : String) (c : Option (List String))
    (st : ProcState) :
    ∀ x ∈ (get_recipients f c st).2.console,
      x ∈ st.console ∨ x = warnNotice ∨ x = errNotice := by
  cases c with
  | none =>
      intro x hx
      have hx' : x ∈ (log_error ("Recipients file \"" ++ f ++ "\" not found.\n")
          st).console := hx
      rw [log_error_console] at hx'
      rcases List.mem_append.mp hx' with h1 | h1
      · exact Or.inl h1
      · right; right
        cases hef : st.error_flag <;> simp_all
  | some lines =>
      obtain ⟨-, -, -, -, h5⟩ := recipLoop_spec f lines [] st
      intro x hx
      by_cases hres : lines.filterMap (fun l => check_email_format (pyStrip l)) = []
      · rw [get_recipients_all_invalid f lines st hres] at hx
        have hx' : x ∈ (log_error ("No valid email address(es) found in \"" ++ f ++
            "\".\n") (recipLoop f lines [] st).2).console := hx
        rw [log_error_console] at hx'
        rcases List.mem_append.mp hx' with h1 | h1
        · rcases h5 x h1 with h2 | h2
          · exact Or.inl h2
          · exact Or.inr (Or.inl h2)
        · right; right
          cases hef : (recipLoop f lines [] st).2.error_flag <;> simp_all
      · rw [get_recipients_some f lines st hres] at hx
        have hx' : x ∈ (recipLoop f lines [] st).2.console := hx
        rcases h5 x hx' with h2 | h2
        · exact Or.inl h2
        · exact Or.inr (Or.inl h2)

/-! ### Counting helpers -/

theorem length_filter_isNone_add (g : String → Option String) (l : List String) :
    (l.filter (fun x => (g x).isNone)).length + (l.filterMap g).length
      = l.length := by
  induction l with
  | nil => rfl
  | cons a t ih =>
      cases hg : g a <;>
        simp [List.filter_cons, List.filterMap_cons, hg] <;> omega

theorem filter_warn_map_warnRecord (f : String) (l : List String) :
    (l.map (warnRecord f)).filter (fun r => r.level == LogLevel.warning)
      = l.map (warnRecord f) := by
  induction l with
  | nil => rfl
  | cons a t ih => simp [warnRecord, List.filter_cons, ih]

end EmailAutomation

namespace EmailAutomation

/-! ### The console-notice latch invariant -/

theorem warnNotice_ne_errNotice : warnNotice ≠ errNotice := by decide

theorem runLogCalls_spec :
    ∀ (calls : List LogCall) (st : ProcState),
      (runLogCalls calls st).console.count warnNotice
          = st.console.count warnNotice +
            (if st.warning_flag && calls.any isWarnCall then 1 else 0) ∧
      (runLogCalls calls st).console.count errNotice
          = st.console.count errNotice +
            (if st.error_flag && calls.any isErrCall then 1 else 0) ∧
      (runLogCalls calls st).logLines.length
          = st.logLines.length + calls.length := by
  intro calls
  induction calls with
  | nil => intro st; simp [runLogCalls]
  | cons c rest ih =>
      intro st
      have hrun : runLogCalls (c :: rest) st
          = runLogCalls rest (applyLogCall st c) := rfl
      cases c with
      | warn m =>
          obtain ⟨ih1, ih2, ih3⟩ := ih (log_warning m st)
          rw [hrun]
          simp only [applyLogCall]
          refine ⟨?_, ?_, ?_⟩
          · rw [ih1, log_warning_warning_flag, log_warning_console]
            rw [List.count_append]
            cases hwf : st.warning_flag <;>
              simp [isWarnCall, List.count_cons, warnNotice_ne_errNotice]
          · rw [ih2, log_warning_error_flag, log_warning_console]
            rw [List.count_append]
            cases hwf : st.warning_flag <;>
              simp [isErrCall, List.count_cons, warnNotice_ne_errNotice]
          · rw [ih3, log_warning_logLines]
            simp [Nat.add_assoc, Nat.add_comm]
            omega
      | err m =>
          obtain ⟨ih1, ih2, ih3⟩ := ih (log_error m st)
          rw [hrun]
          simp only [applyLogCall]
          refine ⟨?_, ?_, ?_⟩
          · rw [ih1, log_error_warning_flag, log_error_console]
            rw [List.count_append]
            have : (errNotice == warnNotice) = false := by decide
            cases hef : st.error_flag <;> simp [isWarnCall, List.count_cons, this]
          · rw [ih2, log_error_error_flag, log_error_console]
            rw [List.count_append]
            cases hef : st.error_flag <;> simp [isErrCall, List.count_cons]
          · rw [ih3, log_error_logLines]
            simp
            omega
      | info m =>
          obtain ⟨ih1, ih2, ih3⟩ := ih (log_success m st)
          rw [hrun]
          simp only [applyLogCall]
          refine ⟨?_, ?_, ?_⟩
          · rw [ih1, log_success_eq]
            simp [isWarnCall]
          · rw [ih2, log_success_eq]
            simp [isErrCall]
          · rw [ih3, log_success_eq]
            simp
            omega

end EmailAutomation

namespace EmailAutomation

/-! ### Configuration-map lemmas -/

theorem cfgGet_map_set_ne (k k' v : String) (h : (k' == k) = false) :
    ∀ c : Config,
      cfgGet (c.map (fun p => if p.1 == k then (k, v) else p)) k' = cfgGet c k' := by
  intro c
  induction c with
  | nil => rfl
  | cons p t ih =>
      by_cases hp : (p.1 == k) = true
      · have hpk : p.1 = k := eq_of_beq hp
        have h3 : (p.1 == k') = false := by
          rw [beq_eq_false_iff_ne] at h ⊢
          rw [hpk]
          exact fun hk => h hk.symm
        have h2 : (k == k') = false := by rw [← hpk]; exact h3
        simp [cfgGet, hp, h2, h3] at ih ⊢
        exact ih
      · have hp' : (p.1 == k) = false := by simpa using hp
        simp [cfgGet, hp'] at ih ⊢
        rw [ih]

theorem cfgGet_append_ne (k k' v : String) (h : (k == k') = false) :
    ∀ c : Config, cfgGet (c ++ [(k, v)]) k' = cfgGet c k' := by
  intro c
  induction c with
  | nil => simp [cfgGet, h]
  | cons p t ih => simp [cfgGet, ih]

theorem cfgGet_map_set_self (k v : String) :
    ∀ c : Config, c.any (fun p => p.1 == k) = true →
      cfgGet (c.map (fun p => if p.1 == k then (k, v) else p)) k = some v := by
  intro c
  induction c with
  | nil => intro h; simp at h
  | cons p t ih =>
      intro h
      by_cases hp : (p.1 == k) = true
      · simp [cfgGet, hp]
      · have hp' : (p.1 == k) = false := by simpa using hp
        have h' : t.any (fun p => p.1 == k) = true := by
          rw [List.any_cons, hp'] at h
          simpa using h
        have ih' := ih h'
        simp [cfgGet, hp'] at ih' ⊢
        exact ih'

theorem cfgGet_append_self (k v : String) :
    ∀ c : Config, c.any (fun p => p.1 == k) = false →
      cfgGet (c ++ [(k, v)]) k = some v := by
  intro c
  induction c with
  | nil => simp [cfgGet]
  | cons p t ih =>
      intro h
      cases hp : (p.1 == k) with
      | true => rw [List.any_cons, hp] at h; simp at h
      | false =>
          have ht : t.any (fun p => p.1 == k) = false := by
            rw [List.any_cons, hp] at h
            simpa using h
          simp [cfgGet, hp, ih ht]

theorem cfgGet_cfgSet_self (c : Config) (k v : String) :
    cfgGet (cfgSet c k v) k = some v := by
  unfold cfgSet
  cases hany : c.any (fun p => p.1 == k) with
  | true =>
      rw [if_pos rfl]
      exact cfgGet_map_set_self k v c hany
  | false =>
      rw [if_neg (by decide)]
      exact cfgGet_append_self k v c hany

theorem cfgGet_cfgSet_ne (c : Config) (k k' v : String) (h : k' ≠ k) :
    cfgGet (cfgSet c k v) k' = cfgGet c k' := by
  have hb : (k' == k) = false := beq_eq_false_iff_ne.mpr h
  have hb2 : (k == k') = false := beq_eq_false_iff_ne.mpr (fun hk => h hk.symm)
  unfold cfgSet
  cases hany : c.any (fun p => p.1 == k) with
  | true =>
      rw [if_pos rfl]
      exact cfgGet_map_set_ne k k' v hb c
  | false =>
      rw [if_neg (by decide)]
      exact cfgGet_append_ne k k' v hb2 c

theorem falsyGet_of_some_ne (c : Config) (k v : String)
    (hv : cfgGet c k = some v) (hne : v ≠ "") : falsyGet c k = false := by
  unfold falsyGet
  rw [hv]
  simpa using hne

theorem falsyGet_of_none (c : Config) (k : String) (h : cfgGet c k = none) :
    falsyGet c k = true := by
  unfold falsyGet
  rw [h]

end EmailAutomation

namespace EmailAutomation

/-! ## Claim theorems -/

/-- C4 (corrected).  The validator is pure and total, returns either the
input itself or the `None` sentinel (second conjunct), and returns the
input *iff* the input — or, and this is the correction, the input with a
single trailing newline removed — matches the pattern «one-or-more
word/dot/dash characters, `@`, one-or-more word/dot/dash characters, `.`,
2–3 word characters» (`emailShape`, the claim's pattern).  The trailing
newline allowance comes from Python's `$`, which also matches just before
a final newline; the claim as stated (without the newline case) is false,
see the counterexample. -/
theorem c4_validator_amended (s : String) :
    (check_email_format s = some s ↔
      (emailShape s.data ∨
        (s.data.getLast? = some '\n' ∧ emailShape s.data.dropLast))) ∧
    (check_email_format s = some s ∨ check_email_format s = none) := by
  constructor
  · rw [check_email_format_regex, rmatch_email_iff, rmatch_email_iff]
  · unfold check_email_format
    rcases Bool.eq_false_or_eq_true (re_match_email s.data) with h | h <;> simp [h]

/-- C4, counterexample to the claim as stated: `"a@b.co\n"` does not match
the claimed pattern (its last character is a newline, not a word
character), yet `check_email_format` returns it unchanged rather than the
invalid sentinel, because Python's `$` matches before a trailing
newline. -/
theorem c4_validator_counterexample :
    check_email_format "a@b.co\n" = some "a@b.co\n" ∧
    ¬ emailShape (String.data "a@b.co\n") := by
  constructor
  · decide
  · rw [← emailShapeB_iff]
    decide

/-- C5 (confirmed).  The loader never reports success with an empty list:
its result is never `some []`; and on a file all of whose lines fail
validation (in particular an empty file) it returns the failure result
`none`. -/
theorem c5_loader_nonempty_or_failure (f : String) (c : Option (List String))
    (st : ProcState) :
    (get_recipients f c st).1 ≠ some [] ∧
    (∀ lines, c = some lines →
      (∀ l ∈ lines, check_email_format (pyStrip l) = none) →
      (get_recipients f c st).1 = none) := by
  refine ⟨get_recipients_ne_some_nil f c st, ?_⟩
  rintro lines rfl hall
  have h : lines.filterMap (fun l => check_email_format (pyStrip l)) = [] :=
    List.filterMap_eq_nil_iff.mpr hall
  rw [get_recipients_all_invalid f lines st h]

theorem c5_loader_nonempty_or_failure_witness :
    (get_recipients "r.txt" (some ["bad"]) initState).1 ≠ some [] ∧
    (get_recipients "r.txt" (some ["bad"]) initState).1 = none :=
  ⟨(c5_loader_nonempty_or_failure "r.txt" (some ["bad"]) initState).1,
   (c5_loader_nonempty_or_failure "r.txt" (some ["bad"]) initState).2 ["bad"] rfl
     (by decide)⟩

/-- C6 (confirmed).  On an existing file whose lines include at least one
valid address, the loader returns exactly the valid (stripped) addresses
in file order — `filterMap` keeps order — and appends exactly N−K
WARNING records to the log, one per invalid line; invalid lines are not
fatal. -/
theorem c6_loader_valid_lines (f : String) (lines : List String) (st : ProcState)
    (hne : lines.filterMap (fun l => check_email_format (pyStrip l)) ≠ []) :
    (get_recipients f (some lines) st).1
        = some (lines.filterMap (fun l => check_email_format (pyStrip l))) ∧
    warnCount (get_recipients f (some lines) st).2
        = warnCount st
          + (lines.length
              - (lines.filterMap (fun l => check_email_format (pyStrip l))).length) := by
  obtain ⟨-, h2, -, -, -⟩ := recipLoop_spec f lines [] st
  rw [get_recipients_some f lines st hne]
  refine ⟨rfl, ?_⟩
  show warnCount (recipLoop f lines [] st).2 = _
  unfold warnCount
  rw [h2, List.filter_append, List.length_append, filter_warn_map_warnRecord,
    List.length_map]
  have := length_filter_isNone_add (fun l => check_email_format (pyStrip l)) lines
  omega

theorem c6_loader_valid_lines_witness :
    (get_recipients "r.txt" (some ["a@test.com", "bad"]) initState).1
        = some ((["a@test.com", "bad"] : List String).filterMap
            (fun l => check_email_format (pyStrip l))) ∧
    warnCount (get_recipients "r.txt" (some ["a@test.com", "bad"]) initState).2
        = warnCount initState
          + ((["a@test.com", "bad"] : List String).length
              - ((["a@test.com", "bad"] : List String).filterMap
                  (fun l => check_email_format (pyStrip l))).length) :=
  c6_loader_valid_lines "r.txt" ["a@test.com", "bad"] initState (by decide)

/-- C7 (confirmed).  The composer fails with the missing-attachment
condition exactly on a non-empty path naming no existing file; succeeds
with the From/To/Subject headers, the plain-text body and no attachment
part on the empty path (`os.path.exists("")` is false, which is the
`fs "" = none` hypothesis); and succeeds on an existing path with one
attachment whose filename is the path's base name. -/
theorem c7_compose_email_attachment_cases (fs : ByteFS)
    (ea ra subj body path : String) (hempty : fs "" = none) :
    (path ≠ "" → fs path = none →
      compose_email fs ea ra subj body path
        = .error ("Attachment file \"" ++ path ++ "\" not found.")) ∧
    (compose_email fs ea ra subj body ""
        = .ok ⟨ea, ra, subj, body, []⟩) ∧
    (∀ bytes, fs path = some bytes →
      compose_email fs ea ra subj body path
        = .ok ⟨ea, ra, subj, body, [⟨basename path, bytes⟩]⟩) := by
  refine ⟨?_, ?_, ?_⟩
  · intro hne hnone
    unfold compose_email
    rw [hnone]
    simp [hne]
  · unfold compose_email
    rw [hempty]
    simp
  · intro bytes hsome
    unfold compose_email
    rw [hsome]

theorem c7_compose_email_attachment_cases_witness :
    compose_email (fun p => if p = "a/b.txt" then some [104, 105] else none)
        "s@x.co" "r@x.co" "su" "m" "missing.txt"
      = .error ("Attachment file \"" ++ "missing.txt" ++ "\" not found.") ∧
    compose_email (fun p => if p = "a/b.txt" then some [104, 105] else none)
        "s@x.co" "r@x.co" "su" "m" ""
      = .ok ⟨"s@x.co", "r@x.co", "su", "m", []⟩ ∧
    compose_email (fun p => if p = "a/b.txt" then some [104, 105] else none)
        "s@x.co" "r@x.co" "su" "m" "a/b.txt"
      = .ok ⟨"s@x.co", "r@x.co", "su", "m", [⟨basename "a/b.txt", [104, 105]⟩]⟩ :=
  ⟨(c7_compose_email_attachment_cases _ "s@x.co" "r@x.co" "su" "m" "missing.txt"
      (by decide)).1 (by decide) (by decide),
   (c7_compose_email_attachment_cases _ "s@x.co" "r@x.co" "su" "m" ""
      (by decide)).2.1,
   (c7_compose_email_attachment_cases _ "s@x.co" "r@x.co" "su" "m" "a/b.txt"
      (by decide)).2.2 [104, 105] (by decide)⟩

/-- C8 (confirmed).  On a persisted configuration that fails to parse,
`load_config` returns the empty configuration, issues no bootstrap
prompt, appends one ERROR record to the log, and prints at most the
one-time error notice; nothing is raised to the caller (the function is
total and returns normally). -/
theorem c8_malformed_config (responses : String → String) (st : ProcState) :
    (load_config responses .malformed st).1 = [] ∧
    (load_config responses .malformed st).2.1 = [] ∧
    (load_config responses .malformed st).2.2.logLines
        = st.logLines ++ [⟨.error, jsonDecodeErrMsg⟩] ∧
    (load_config responses .malformed st).2.2.console
        = st.console ++ (if st.error_flag then [errNotice] else []) := by
  refine ⟨rfl, rfl, ?_, ?_⟩
  · show (log_error jsonDecodeErrMsg st).logLines = _
    rw [log_error_logLines]
  · show (log_error jsonDecodeErrMsg st).console = _
    rw [log_error_console]

/-- C9 (confirmed).  Over any sequence of logging calls in one process
lifetime (started at `initState`; the latches live in the process state
and are reset only by starting over from `initState`), the console shows
the warning notice exactly once if any warning was logged and never
otherwise, likewise the error notice for errors — so at most one notice
per severity class — while every call, silent or not, appends exactly one
record to the log file. -/
theorem c9_logger_notice_latch (calls : List LogCall) :
    (runLogCalls calls initState).console.count warnNotice
        = (if calls.any isWarnCall then 1 else 0) ∧
    (runLogCalls calls initState).console.count errNotice
        = (if calls.any isErrCall then 1 else 0) ∧
    (runLogCalls calls initState).console.count warnNotice ≤ 1 ∧
    (runLogCalls calls initState).console.count errNotice ≤ 1 ∧
    (runLogCalls calls initState).logLines.length = calls.length := by
  obtain ⟨h1, h2, h3⟩ := runLogCalls_spec calls initState
  refine ⟨?_, ?_, ?_, ?_, ?_⟩
  · rw [h1]; simp [initState]
  · rw [h2]; simp [initState]
  · rw [h1]; cases h : calls.any isWarnCall <;> simp [initState, h]
  · rw [h2]; cases h : calls.any isErrCall <;> simp [initState, h]
  · rw [h3]; simp [initState]

end EmailAutomation

namespace EmailAutomation

/-- C1 (code_bug).  End-to-end scenario, evaluated on the model: the
loader accepts the two valid addresses and logs exactly one warning, the
dispatcher returns `some true` and `main` prints the success line — but
`infoCount = 2` success log records notwithstanding, `smtpSent = []`:
the `gmail_server.sendmail(...)` call at source line 224 is commented
out, so zero messages are actually transmitted where the claim (and the
function's own docstring and success log) say two are sent. -/
theorem c1_end_to_end_run :
    (get_recipients "recipients.txt"
        (some ["a@test.com", "bad-address", "b@test.co"]) initState).1
      = some ["a@test.com", "b@test.co"] ∧
    warnCount (get_recipients "recipients.txt"
        (some ["a@test.com", "bad-address", "b@test.co"]) initState).2 = 1 ∧
    (send_email ⟨fun _ _ => true⟩ (fun _ => none) "s@test.com" "pw"
        ["a@test.com", "b@test.co"] "Sub" "Msg" ""
        (get_recipients "recipients.txt"
          (some ["a@test.com", "bad-address", "b@test.co"]) initState).2).1
      = some true ∧
    infoCount (send_email ⟨fun _ _ => true⟩ (fun _ => none) "s@test.com" "pw"
        ["a@test.com", "b@test.co"] "Sub" "Msg" ""
        (get_recipients "recipients.txt"
          (some ["a@test.com", "bad-address", "b@test.co"]) initState).2).2 = 2 ∧
    (send_email ⟨fun _ _ => true⟩ (fun _ => none) "s@test.com" "pw"
        ["a@test.com", "b@test.co"] "Sub" "Msg" ""
        (get_recipients "recipients.txt"
          (some ["a@test.com", "bad-address", "b@test.co"]) initState).2).2.smtpSent
      = [] ∧
    (main ⟨fun _ _ => true⟩
        (fun _ => some ["a@test.com", "bad-address", "b@test.co"]) (fun _ => none)
        "s@test.com" "pw" "recipients.txt" "Sub" "Msg" "" initState).console
      = [warnNotice, "Successfully sent emails."] := by
  exact ⟨by decide, by decide, by decide, by decide, by decide, by decide⟩

/-- C2 (code_bug).  `send_email` evaluated at a failing input — valid
sender, successful login, two recipients, non-empty attachment path
naming no file: `compose_email` raises `FileExistsError` on the first
recipient, the `except FileExistsError` handler logs and, having no
`return` statement, lets the function return Python `None` (`none` here)
— not the boolean `False` the claim (and the docstring's
"False otherwise") requires.  `infoCount = 0` shows the remaining
recipients were indeed aborted. -/
theorem c2_send_email_missing_attachment_returns_none :
    (send_email ⟨fun _ _ => true⟩ (fun _ => none) "s@test.com" "pw"
        ["a@test.com", "b@test.com"] "Sub" "Msg" "missing.txt" initState).1
      = none ∧
    infoCount (send_email ⟨fun _ _ => true⟩ (fun _ => none) "s@test.com" "pw"
        ["a@test.com", "b@test.com"] "Sub" "Msg" "missing.txt" initState).2
      = 0 := by
  exact ⟨by decide, by decide⟩

/-- C10 (corrected).  When the loader fails, `main` returns the loader's
state unchanged: the dispatcher is never entered and neither
"Successfully sent emails." nor "Failed to send emails." is printed;
every console line present after the run is a pre-existing line or one of
the two logger notices.  (The claim's stronger "only the error path's
output" is false — the warning notice can also appear, see the
counterexample.) -/
theorem c10_loader_failure_main (env : SMTPEnv)
    (files : String → Option (List String)) (fs : ByteFS)
    (ea pw rf subj msg ap : String) (st : ProcState)
    (h : (get_recipients rf (files rf) st).1 = none) :
    main env files fs ea pw rf subj msg ap st
        = (get_recipients rf (files rf) st).2 ∧
    ∀ x ∈ (main env files fs ea pw rf subj msg ap st).console,
      x ∈ st.console ∨ x = warnNotice ∨ x = errNotice := by
  have hmain : main env files fs ea pw rf subj msg ap st
      = (get_recipients rf (files rf) st).2 := by
    simp only [main]
    rw [h]
  refine ⟨hmain, ?_⟩
  rw [hmain]
  exact get_recipients_console rf (files rf) st

theorem c10_loader_failure_main_witness :
    main ⟨fun _ _ => true⟩ (fun _ => some ["bad"]) (fun _ => none) "e@x.co" "p"
        "r.txt" "s" "m" "" initState
      = (get_recipients "r.txt" (some ["bad"]) initState).2 :=
  (c10_loader_failure_main ⟨fun _ _ => true⟩ (fun _ => some ["bad"])
    (fun _ => none) "e@x.co" "p" "r.txt" "s" "m" "" initState (by decide)).1

/-- C10, counterexample to the claim as stated: a recipients file with
the single invalid line `"bad"` makes the loader fail, and the console
then shows the *warning* notice (printed by `log_warning`, the warning
path, for the invalid line) in addition to the error notice — so the
user-visible output does not come only from the logger's error path. -/
theorem c10_console_counterexample :
    (get_recipients "r.txt" (some ["bad"]) initState).1 = none ∧
    (main ⟨fun _ _ => true⟩ (fun _ => some ["bad"]) (fun _ => none) "e@x.co" "p"
        "r.txt" "s" "m" "" initState).console = [warnNotice, errNotice] ∧
    warnNotice ≠ errNotice := by
  exact ⟨by decide, by decide, warnNotice_ne_errNotice⟩

/-- C3, counterexample to the claim as stated: a persisted configuration
holding every required key except `subject`, with the attachment path
present and empty (explicitly allowed by the claim), makes the bootstrap
prompt for *two* keys — `subject` and the attachment path — because
`setup_config` re-prompts every key whose value is Python-falsy and the
empty string is falsy.  So "prompts only for `subject`" fails. -/
theorem c3_bootstrap_prompts_counterexample :
    (load_config (fun k => if k = "subject" then "S" else "")
        (.stored [("email_address", "a@b.co"), ("recipients_file", "r.txt"),
          ("message", "hi"), ("attachment_path", "")]) initState).2.1
      = ["Enter the email subject: ",
         "Enter the file attachment path (optional, press Enter to skip): "] ∧
    (["Enter the email subject: ",
      "Enter the file attachment path (optional, press Enter to skip): "]
        : List String)
      ≠ ["Enter the email subject: "] := by
  exact ⟨by decide, by decide⟩

/-- C3 (corrected).  For a persisted configuration whose required keys
other than `subject` are present with non-empty values and whose
`subject` is absent, the bootstrap prompts for `subject` and — the
correction — also for the attachment path exactly when its stored value
is absent or empty; afterwards the persisted configuration keeps every
previously-present non-empty value unchanged, stores the entered
`subject`, keeps a non-empty attachment path unchanged and stores the
entered attachment value otherwise.  The process state is untouched. -/
theorem c3_bootstrap_amended (responses : String → String) (c : Config)
    (st : ProcState) (e rf m : String)
    (he : cfgGet c "email_address" = some e) (hene : e ≠ "")
    (hrf : cfgGet c "recipients_file" = some rf) (hrfne : rf ≠ "")
    (hm : cfgGet c "message" = some m) (hmne : m ≠ "")
    (hs : cfgGet c "subject" = none) :
    (load_config responses (.stored c) st).2.1
        = "Enter the email subject: " ::
          (if falsyGet c "attachment_path" then
            ["Enter the file attachment path (optional, press Enter to skip): "]
          else []) ∧
    cfgGet (load_config responses (.stored c) st).1 "email_address" = some e ∧
    cfgGet (load_config responses (.stored c) st).1 "recipients_file" = some rf ∧
    cfgGet (load_config responses (.stored c) st).1 "message" = some m ∧
    cfgGet (load_config responses (.stored c) st).1 "subject"
        = some (responses "subject") ∧
    (falsyGet c "attachment_path" = false →
      cfgGet (load_config responses (.stored c) st).1 "attachment_path"
        = cfgGet c "attachment_path") ∧
    (falsyGet c "attachment_path" = true →
      cfgGet (load_config responses (.stored c) st).1 "attachment_path"
        = some (responses "attachment_path")) ∧
    (load_config responses (.stored c) st).2.2 = st := by
  have hreq : (required_fields.any (fun fld => (cfgGet c fld).isNone)) = true := by
    apply List.any_eq_true.mpr
    refine ⟨"subject", by decide, by rw [hs]; rfl⟩
  have hload : load_config responses (.stored c) st
      = ((setup_config responses c).1, (setup_config responses c).2, st) := by
    simp only [load_config]
    rw [if_pos hreq]
  have f1 : falsyGet c "email_address" = false := falsyGet_of_some_ne c _ e he hene
  have f2 : falsyGet c "recipients_file" = false :=
    falsyGet_of_some_ne c _ rf hrf hrfne
  have f3 : falsyGet c "subject" = true := falsyGet_of_none c _ hs
  have hm1 : cfgGet (cfgSet c "subject" (responses "subject")) "message"
      = some m := by
    rw [cfgGet_cfgSet_ne c "subject" "message" _ (by decide)]
    exact hm
  have f4 : falsyGet (cfgSet c "subject" (responses "subject")) "message"
      = false := falsyGet_of_some_ne _ _ m hm1 hmne
  have f5 : falsyGet (cfgSet c "subject" (responses "subject")) "attachment_path"
      = falsyGet c "attachment_path" := by
    unfold falsyGet
    rw [cfgGet_cfgSet_ne c "subject" "attachment_path" _ (by decide)]
  have hsetup : setup_config responses c
      = (if falsyGet c "attachment_path" then
          (cfgSet (cfgSet c "subject" (responses "subject")) "attachment_path"
            (responses "attachment_path"),
           ["Enter the email subject: ",
            "Enter the file attachment path (optional, press Enter to skip): "])
         else
          (cfgSet c "subject" (responses "subject"),
           ["Enter the email subject: "])) := by
    unfold setup_config config_keys
    simp only [List.foldl_cons, List.foldl_nil]
    simp [f1, f2, f3, f4, f5]
  rw [hload, hsetup]
  by_cases hA : falsyGet c "attachment_path" = true
  · rw [hA]
    simp only [if_pos rfl, if_true]
    refine ⟨by trivial, ?_, ?_, ?_, ?_, ?_, ?_, by trivial⟩
    · rw [cfgGet_cfgSet_ne _ _ _ _ (by decide),
        cfgGet_cfgSet_ne _ _ _ _ (by decide)]
      exact he
    · rw [cfgGet_cfgSet_ne _ _ _ _ (by decide),
        cfgGet_cfgSet_ne _ _ _ _ (by decide)]
      exact hrf
    · rw [cfgGet_cfgSet_ne _ _ _ _ (by decide)]
      exact hm1
    · rw [cfgGet_cfgSet_ne _ _ _ _ (by decide)]
      exact cfgGet_cfgSet_self c "subject" _
    · intro hcontra
      cases hcontra
    · intro _
      exact cfgGet_cfgSet_self _ "attachment_path" _
  · have hA' : falsyGet c "attachment_path" = false := by
      cases hval : falsyGet c "attachment_path"
      · rfl
      · exact absurd hval hA
    rw [hA']
    simp only [if_neg (by decide : ¬(false = true))]
    refine ⟨by trivial, ?_, ?_, ?_, ?_, ?_, ?_, by trivial⟩
    · rw [cfgGet_cfgSet_ne _ _ _ _ (by decide)]
      exact he
    · rw [cfgGet_cfgSet_ne _ _ _ _ (by decide)]
      exact hrf
    · exact hm1
    · exact cfgGet_cfgSet_self c "subject" _
    · intro _
      rw [cfgGet_cfgSet_ne _ _ _ _ (by decide)]
    · intro hcontra
      cases hcontra

theorem c3_bootstrap_amended_witness :
    (load_config (fun k => if k = "subject" then "S" else "A")
        (.stored [("email_address", "a@b.co"), ("recipients_file", "r.txt"),
          ("message", "hi"), ("attachment_path", "")]) initState).2.1
      = "Enter the email subject: " ::
        (if falsyGet [("email_address", "a@b.co"), ("recipients_file", "r.txt"),
            ("message", "hi"), ("attachment_path", "")] "attachment_path" then
          ["Enter the file attachment path (optional, press Enter to skip): "]
        else []) ∧
    cfgGet (load_config (fun k => if k = "subject" then "S" else "A")
        (.stored [("email_address", "a@b.co"), ("recipients_file", "r.txt"),
          ("message", "hi"), ("attachment_path", "")]) initState).1 "subject"
      = some ((fun k => if k = "subject" then "S" else "A") "subject") := by
  have h := c3_bootstrap_amended (fun k => if k = "subject" then "S" else "A")
    [("email_address", "a@b.co"), ("recipients_file", "r.txt"),
      ("message", "hi"), ("attachment_path", "")] initState
    "a@b.co" "r.txt" "hi" (by decide) (by decide) (by decide) (by decide)
    (by decide) (by decide) (by decide)
  exact ⟨h.1, h.2.2.2.2.1⟩

end EmailAutomation
